import Mathlib

/-!
Shallow embedding of the core logic of the business-intelligence dashboard
(`data_processor.py`, `utils.py`, `insights.py`, and the filter callback in
`app.py`), together with theorems settling the frozen claims about its
specification.

Modelling conventions, used throughout:

* A pandas `DataFrame` is a `Table`: a list of named `Column`s.  A column
  carries its dtype as `Kind` (`numeric` ~ any numeric dtype, `text` ~
  object/category dtype, `datetime` ~ datetime64) and its cells, where a
  cell is a typed value or `Cell.missing` (pandas `NaN` / `NaT` / `None`).
* Timestamps are integers counting seconds; calendar day `d` (a natural
  day index) covers the half-open second range `[86400*d, 86400*(d+1))`.
  The day index of a calendar date y-m-d is `372*y + 31*(m-1) + (d-1)`,
  a strictly monotone injection of calendar dates into naturals, so date
  comparisons are faithful.  Sub-second (nanosecond) resolution of pandas
  timestamps is not modelled; all timestamps are whole seconds.
* The external pandas parsers `pd.to_datetime` / `pd.to_numeric` are
  modelled by concrete executable parsers (`parseDateStr`, `parseNumStr`)
  for ISO `YYYY-MM-DD` dates and signed decimal numerals.  The claims
  under study depend only on which cells parse, never on the exact
  grammar the parser accepts.
* Numbers are `ℚ` (the claims never exercise float rounding).
* Comparisons against `Cell.missing` are `false`, matching pandas
  semantics for `NaN` / `NaT` in boolean masks.
-/

namespace BIDash

/-- Kind of a column, mirroring the pandas dtype classification the source
dispatches on: `numeric` for numeric dtypes, `text` for object/category,
`datetime` for datetime64. -/
inductive Kind where
  | numeric
  | text
  | datetime
deriving DecidableEq, Repr

/-- Cell of a table: a typed value or the missing sentinel (NaN/NaT/None). -/
inductive Cell where
  | missing
  | str (s : String)
  | num (q : ℚ)
  | dt (t : ℤ)
deriving DecidableEq, Repr

/-- Whether a cell is the missing sentinel (pandas `isnull`). -/
def Cell.isMissing : Cell → Bool
  | .missing => true
  | _ => false

/-- Named column with its dtype kind and cells. -/
structure Column where
  name : String
  kind : Kind
  cells : List Cell
deriving DecidableEq, Repr

/-- Table: ordered list of named columns (a pandas `DataFrame`). -/
structure Table where
  cols : List Column
deriving DecidableEq, Repr

/-- Number of rows, read off the first column (`len(df)`); 0 for a table
with no columns. -/
def numRows (t : Table) : ℕ :=
  match t.cols with
  | [] => 0
  | c :: _ => c.cells.length

/-- Look a column up by name (`df[col]`), `none` when absent. -/
def lookupCol (t : Table) (n : String) : Option Column :=
  t.cols.find? (fun c => c.name = n)

/-- Whether the pattern list is a prefix of the second list (character
matching helper for substring tests). -/
def matchAt : List Char → List Char → Bool
  | [], _ => true
  | _ :: _, [] => false
  | a :: as, b :: bs => a == b && matchAt as bs

/-- Whether `pat` occurs as a contiguous substring of `s` (Python `in`). -/
def hasSub (s pat : String) : Bool :=
  let sl := s.toList
  (List.range (sl.length + 1)).any (fun i => matchAt pat.toList (sl.drop i))

/-- Lowercase a string (Python `str.lower`; restricted to ASCII as the
heuristic tokens are ASCII). -/
def lowerStr (s : String) : String :=
  ⟨s.data.map Char.toLower⟩

/-- Day index of a calendar date: a strictly monotone injection of valid
dates (month 1..12, day 1..31) into ℕ. -/
def dayIndex (y m d : ℕ) : ℕ := 372 * y + 31 * (m - 1) + (d - 1)

/-- Split a character list on a separator (Python `str.split(sep)`). -/
def splitOnSep (sep : Char) (l : List Char) : List (List Char) :=
  l.foldr (fun c acc =>
    match acc with
    | [] => [[c]]
    | cur :: rest => if c = sep then [] :: cur :: rest else (c :: cur) :: rest)
    [[]]

/-- Accumulating decimal-digit reader: `none` on a non-digit. -/
def digitsVal : List Char → ℕ → Option ℕ
  | [], acc => some acc
  | c :: cs, acc =>
    if c.isDigit then digitsVal cs (10 * acc + (c.toNat - 48)) else none

/-- Value of a nonempty all-digit character list (`String.toNat?`). -/
def natOfChars (l : List Char) : Option ℕ :=
  match l with
  | [] => none
  | _ => digitsVal l 0

/-- Model of the external date parser (`pd.to_datetime` on a string):
parses `YYYY-MM-DD` to the midnight timestamp of that day, `none` when
the string is not a date. -/
def parseDateStr (s : String) : Option ℕ :=
  match splitOnSep '-' s.data with
  | [ys, ms, ds] =>
    match natOfChars ys, natOfChars ms, natOfChars ds with
    | some y, some m, some d =>
      if 1 ≤ m ∧ m ≤ 12 ∧ 1 ≤ d ∧ d ≤ 31 then some (dayIndex y m d) else none
    | _, _, _ => none
  | _ => none

/-- Midnight timestamp (in seconds) of the calendar day with index `d`. -/
def dayBase (d : ℕ) : ℤ := 86400 * (d : ℤ)

/-- Model of the external numeric parser (`pd.to_numeric` on a string):
optional sign, decimal digits, optional fractional part. -/
def parseNumStr (s : String) : Option ℚ :=
  let parsePos : List Char → Option ℚ := fun b =>
    match splitOnSep '.' b with
    | [a] => (natOfChars a).map (fun n => (n : ℚ))
    | [a, f] =>
      match natOfChars a, natOfChars f with
      | some n, some fr => some ((n : ℚ) + (fr : ℚ) / ((10 : ℚ) ^ f.length))
      | _, _ => none
    | _ => none
  match s.data with
  | '-' :: rest => (parsePos rest).map (fun q => -q)
  | l => parsePos l

/-- Element-wise model of `pd.to_datetime(column, errors="coerce")` on an
object column: strings parse to timestamps or become missing. -/
def dateParseCell : Cell → Cell
  | .str s =>
    match parseDateStr s with
    | some d => .dt (dayBase d)
    | none => .missing
  | .dt t => .dt t
  | _ => .missing

/-- Element-wise model of `pd.to_numeric(column, errors="coerce")` on an
object column: strings parse to numbers or become missing, numbers kept. -/
def numParseCell : Cell → Cell
  | .str s =>
    match parseNumStr s with
    | some q => .num q
    | none => .missing
  | .num q => .num q
  | _ => .missing

/-- Fraction of non-missing cells (`series.notna().mean()`); division by a
zero length yields 0 in ℚ, matching `NaN > 0.5` being false in pandas. -/
def notnaFrac (cs : List Cell) : ℚ :=
  ((cs.countP (fun c => !c.isMissing) : ℚ)) / ((cs.length : ℚ))

/-- Date-indicator tokens of `clean_and_infer_types` in
`data_processor.py`. -/
def dateIndicators : List String :=
  ["date", "time", "created", "updated", "timestamp"]

/-- Whether a column name contains a date-indicator token
(`likely_date` in `clean_and_infer_types`). -/
def likelyDate (name : String) : Bool :=
  dateIndicators.any (fun ind => hasSub (lowerStr name) ind)

/-- Embedding of the per-column body of `clean_and_infer_types`
(`data_processor.py` lines 61-88): preserve datetime columns; attempt
datetime conversion for likely-date object columns when more than half
the cells parse; attempt numeric conversion for object columns that are
not likely-date when more than half the cells parse; otherwise leave the
column unchanged. -/
def inferCol (c : Column) : Column :=
  if c.kind = .datetime then c
  else if likelyDate c.name ∧ c.kind = .text ∧
      notnaFrac (c.cells.map dateParseCell) > 1 / 2 then
    ⟨c.name, .datetime, c.cells.map dateParseCell⟩
  else if c.kind = .text ∧ ¬ likelyDate c.name ∧
      notnaFrac (c.cells.map numParseCell) > 1 / 2 then
    ⟨c.name, .numeric, c.cells.map numParseCell⟩
  else c

/-- Embedding of `clean_and_infer_types` (`data_processor.py` lines
40-90): the per-column inference applied to every column in place. -/
def cleanAndInferTypes (t : Table) : Table :=
  ⟨t.cols.map inferCol⟩

/-- Non-missing string values of a cell list (an object column's values;
the claims only exercise string-valued object columns). -/
def strCells (cs : List Cell) : List String :=
  cs.filterMap (fun c => match c with | .str s => some s | _ => none)

/-- Lexicographic order on character lists by code point (the order
Python uses to compare strings). -/
def lexLeChars : List Char → List Char → Bool
  | [], _ => true
  | _ :: _, [] => false
  | a :: as, b :: bs => if a = b then lexLeChars as bs else decide (a < b)

/-- Lexicographic order on strings by code point. -/
def lexLe (a b : String) : Bool := lexLeChars a.data b.data

instance : IsTotal String (fun a b => lexLe a b = true) := by
  constructor
  intro a b
  show lexLeChars a.data b.data = true ∨ lexLeChars b.data a.data = true
  generalize a.data = as
  generalize b.data = bs
  induction as generalizing bs with
  | nil => left; rfl
  | cons a as ih =>
    cases bs with
    | nil => right; rfl
    | cons b bs =>
      by_cases hab : a = b
      · subst hab
        rcases ih bs with h | h
        · left; simpa [lexLeChars] using h
        · right; simpa [lexLeChars] using h
      · rcases lt_or_gt_of_ne hab with h | h
        · left; simp [lexLeChars, hab, h]
        · right
          have hba : ¬ b = a := fun hh => hab hh.symm
          simp [lexLeChars, hba, h]

instance : IsTrans String (fun a b => lexLe a b = true) := by
  constructor
  intro a b c
  show lexLeChars a.data b.data = true → lexLeChars b.data c.data = true →
    lexLeChars a.data c.data = true
  generalize a.data = as
  generalize b.data = bs
  generalize c.data = cs
  induction as generalizing bs cs with
  | nil => intro _ _; rfl
  | cons a as ih =>
    intro h1 h2
    cases bs with
    | nil => simp [lexLeChars] at h1
    | cons b bs =>
      cases cs with
      | nil => simp [lexLeChars] at h2
      | cons c cs =>
        by_cases hab : a = b <;> by_cases hbc : b = c
        · subst hab; subst hbc
          simp only [lexLeChars, if_pos rfl] at h1 h2 ⊢
          exact ih bs cs h1 h2
        · subst hab
          simp only [lexLeChars, if_neg hbc] at h2 ⊢
          exact h2
        · subst hbc
          simp only [lexLeChars, if_neg hab] at h1 ⊢
          exact h1
        · simp only [lexLeChars, if_neg hab] at h1
          simp only [lexLeChars, if_neg hbc] at h2
          have hac : a < c :=
            lt_trans (of_decide_eq_true h1) (of_decide_eq_true h2)
          simp [lexLeChars, ne_of_lt hac, hac]

/-- Model of `series.mode()` on an object column: the values attaining
the maximal occurrence count, in ascending (sorted) order — pandas
documents that `mode` returns its result sorted. -/
def modeList (vals : List String) : List String :=
  let d := vals.dedup
  let mx := (d.map (fun v => vals.count v)).foldr max 0
  (List.insertionSort (fun a b => lexLe a b = true) d).filter
    (fun v => vals.count v = mx)

/-- Embedding of `categorical_summary` (`data_processor.py` lines
150-177): for each object/category column, the non-missing unique-value
count and the first entry of `mode()` (or `none` when `mode()` is
empty). -/
def categoricalSummary (t : Table) : List (String × ℕ × Option String) :=
  (t.cols.filter (fun c => c.kind = .text)).map (fun c =>
    let vals := strCells c.cells
    (c.name, vals.dedup.length, (modeList vals).head?))

/-- Embedding of `missing_values_report` (`data_processor.py` lines
180-193): per-column missing-cell counts. -/
def missingReport (t : Table) : List (String × ℕ) :=
  t.cols.map (fun c => (c.name, c.cells.countP (fun x => x.isMissing)))

/-- Numeric describe row (`describe().T` in `numeric_summary`).  The
sample standard deviation is stored as its square `varSample`
(std = sqrt varSample, an injective representation avoiding irrational
values); `none` models pandas `NaN`. -/
structure NumSummary where
  count : ℕ
  mean : Option ℚ
  varSample : Option ℚ
  minv : Option ℚ
  q25 : Option ℚ
  q50 : Option ℚ
  q75 : Option ℚ
  maxv : Option ℚ
deriving DecidableEq, Repr

/-- Non-missing numeric values of a cell list. -/
def numCells (cs : List Cell) : List ℚ :=
  cs.filterMap (fun c => match c with | .num q => some q | _ => none)

/-- Linear-interpolation percentile (numpy default) over an ascending
sorted value list; `none` on an empty list. -/
def percentile (sorted : List ℚ) (p : ℚ) : Option ℚ :=
  match sorted with
  | [] => none
  | _ =>
    let h : ℚ := p * ((sorted.length : ℚ) - 1)
    let l : ℕ := (⌊h⌋).toNat
    let lo := sorted.getD l 0
    let hi := sorted.getD (l + 1) lo
    some (lo + (h - (⌊h⌋ : ℚ)) * (hi - lo))

/-- Describe row of one numeric column (count of non-missing values,
mean, sample variance with ddof = 1, min, quartiles, max). -/
def describeCol (cs : List Cell) : NumSummary :=
  let vals := numCells cs
  let n := vals.length
  let sorted := List.insertionSort (fun a b => a ≤ b) vals
  let mean : Option ℚ := if n = 0 then none else some (vals.sum / (n : ℚ))
  { count := n
    mean := mean
    varSample :=
      if n < 2 then none
      else some ((vals.map (fun x => (x - vals.sum / (n : ℚ)) ^ 2)).sum / ((n : ℚ) - 1))
    minv := sorted.head?
    q25 := percentile sorted (1 / 4)
    q50 := percentile sorted (1 / 2)
    q75 := percentile sorted (3 / 4)
    maxv := sorted.getLast? }

/-- Embedding of `numeric_summary` (`data_processor.py` lines 131-147):
empty when the numeric sub-frame is empty (no numeric columns, or zero
rows), otherwise one describe row per numeric column. -/
def numericSummary (t : Table) : List (String × NumSummary) :=
  let ncols := t.cols.filter (fun c => c.kind = .numeric)
  if ncols = [] ∨ numRows t = 0 then []
  else ncols.map (fun c => (c.name, describeCol c.cells))

/-- Rows where both columns have non-missing numeric values (pairwise
complete observations, as pandas `corr` uses). -/
def pairedVals (xs ys : List Cell) : List (ℚ × ℚ) :=
  (xs.zip ys).filterMap (fun p => match p with
    | (.num a, .num b) => some (a, b)
    | _ => none)

/-- Pearson correlation of two cell lists, represented injectively as
`(sign r, r ^ 2)`: with `n` paired observations and centred sums
`cxy = n·Σxy − Σx·Σy`, `cxx`, `cyy`, the real correlation is
`r = cxy / sqrt (cxx·cyy)`, so `sign r = sign cxy` and
`r ^ 2 = cxy ^ 2 / (cxx·cyy)`.  The entry is `none` (pandas `NaN`) when
either centred self-sum vanishes (constant column, or fewer than two
paired observations). -/
def corrEntry (xs ys : List Cell) : Option (ℤ × ℚ) :=
  let ps := pairedVals xs ys
  let n : ℚ := (ps.length : ℚ)
  let sx := (ps.map Prod.fst).sum
  let sy := (ps.map Prod.snd).sum
  let cxx := n * (ps.map (fun p => p.1 * p.1)).sum - sx * sx
  let cyy := n * (ps.map (fun p => p.2 * p.2)).sum - sy * sy
  let cxy := n * (ps.map (fun p => p.1 * p.2)).sum - sx * sy
  if cxx = 0 ∨ cyy = 0 then none
  else some (if 0 < cxy then 1 else if cxy < 0 then -1 else 0, cxy ^ 2 / (cxx * cyy))

/-- Embedding of `correlation_matrix` (`data_processor.py` lines
196-212): empty when the numeric sub-frame is empty (no numeric columns,
or zero rows), otherwise the full matrix of pairwise Pearson
correlations in the `(sign, square)` representation of `corrEntry`. -/
def correlationMatrix (t : Table) :
    List (String × List (String × Option (ℤ × ℚ))) :=
  let ncols := t.cols.filter (fun c => c.kind = .numeric)
  if ncols = [] ∨ numRows t = 0 then []
  else ncols.map (fun c =>
    (c.name, ncols.map (fun c2 => (c2.name, corrEntry c.cells c2.cells))))

/-- Keep the rows of a table selected by a boolean mask
(`df[boolean_series]`). -/
def applyMask (t : Table) (m : List Bool) : Table :=
  ⟨t.cols.map (fun c =>
    ⟨c.name, c.kind,
      (c.cells.zip m).filterMap (fun p => if p.2 then some p.1 else none)⟩)⟩

/-- Filter a table's rows by a predicate on one column's cells; identity
when the column is absent. -/
def maskBy (t : Table) (col : String) (p : Cell → Bool) : Table :=
  match lookupCol t col with
  | some c => applyMask t (c.cells.map p)
  | none => t

/-- Mask predicate `value ≥ bound` for a numeric bound; missing (and
non-numeric) cells compare false, as in pandas. -/
def cellGeQ (c : Cell) (b : ℚ) : Bool :=
  match c with | .num q => b ≤ q | _ => false

/-- Mask predicate `value ≤ bound` for a numeric bound. -/
def cellLeQ (c : Cell) (b : ℚ) : Bool :=
  match c with | .num q => q ≤ b | _ => false

/-- Mask predicate `value ≥ bound` for a timestamp bound; missing (NaT)
cells compare false. -/
def cellGeT (c : Cell) (b : ℤ) : Bool :=
  match c with | .dt v => b ≤ v | _ => false

/-- Mask predicate `value ≤ bound` for a timestamp bound. -/
def cellLeT (c : Cell) (b : ℤ) : Bool :=
  match c with | .dt v => v ≤ b | _ => false

/-- Mask predicate for `series.isin(values)` on string values. -/
def cellInStrs (c : Cell) (sel : List String) : Bool :=
  match c with | .str s => sel.contains s | _ => false

/-- Kind of a named column, when present. -/
def kindOf (t : Table) (col : String) : Option Kind :=
  (lookupCol t col).map (fun c => c.kind)

/-- One numeric-filter step of `utils.apply_filters` (lines 71-77):
skipped when the column is absent; each present bound filters rows. -/
def utilsNumStep (t : Table) (f : String × Option ℚ × Option ℚ) : Table :=
  let (col, mn, mx) := f
  if (lookupCol t col).isSome then
    let t1 := match mn with
      | some v => maskBy t col (fun c => cellGeQ c v)
      | none => t
    match mx with
    | some v => maskBy t1 col (fun c => cellLeQ c v)
    | none => t1
  else t

/-- One categorical-filter step of `utils.apply_filters` (lines 80-82):
skipped when the column is absent or the selection empty. -/
def utilsCatStep (t : Table) (f : String × List String) : Table :=
  let (col, sel) := f
  if (lookupCol t col).isSome ∧ sel ≠ [] then
    maskBy t col (fun c => cellInStrs c sel)
  else t

/-- One date-filter step of `utils.apply_filters` (lines 85-101).  An
empty bound string is falsy and skipped; an unparseable bound, or a
comparison against a non-datetime column (a `TypeError` in pandas), is
swallowed by the `try`/`except` and leaves the table unchanged.  Note
the end bound is compared directly — it is NOT widened to end-of-day
here, unlike the filter callback in `app.py`. -/
def utilsDateStep (t : Table) (f : String × String × String) : Table :=
  let (col, startS, endS) := f
  if (lookupCol t col).isSome then
    let t1 :=
      if startS ≠ "" then
        match parseDateStr startS with
        | some d =>
          if kindOf t col = some .datetime then
            maskBy t col (fun c => cellGeT c (dayBase d))
          else t
        | none => t
      else t
    if endS ≠ "" then
      match parseDateStr endS with
      | some d =>
        if kindOf t1 col = some .datetime then
          maskBy t1 col (fun c => cellLeT c (dayBase d))
        else t1
      | none => t1
    else t1
  else t

/-- Embedding of `utils.apply_filters` (`utils.py` lines 42-103): an
empty input frame (zero rows or zero columns) yields the completely
empty frame `pd.DataFrame()`; otherwise the numeric, categorical and
date filter groups are applied in order. -/
def utilsApplyFilters (t : Table) (numF : List (String × Option ℚ × Option ℚ))
    (catF : List (String × List String))
    (dateF : List (String × String × String)) : Table :=
  if t.cols = [] ∨ numRows t = 0 then ⟨[]⟩
  else
    let t1 := numF.foldl utilsNumStep t
    let t2 := catF.foldl utilsCatStep t1
    dateF.foldl utilsDateStep t2

/-- String representation of a cell (`astype(str)`); only string cells
are exercised by the claims. -/
def cellStr : Cell → String
  | .str s => s
  | .num q => toString q
  | .dt v => toString v
  | .missing => "nan"

/-- Replace a named column's content in place. -/
def replaceCol (t : Table) (col : String) (f : Column → Column) : Table :=
  ⟨t.cols.map (fun c => if c.name = col then f c else c)⟩

/-- Embedding of the `apply_filters` callback nested in
`create_dashboard` (`app.py` lines 242-286), restricted to the filtered
table it computes (the row-count strings around it are presentation).
`none` models the uncaught `KeyError` of indexing a missing categorical
column.  The date branch first coerces a non-datetime column with
`pd.to_datetime(errors="coerce")`, then applies the bounds; the end
bound is widened by `+ 1 day − 1 second` (here `+ 86399` seconds). -/
def appApplyFilters (t : Table) (catCol : String) (catVals : List String)
    (numCol : String) (nMin nMax : Option ℚ)
    (dateCol : String) (dStart dEnd : String) : Option Table :=
  let step1 : Option Table :=
    if catCol ≠ "" ∧ catVals ≠ [] then
      match lookupCol t catCol with
      | none => none
      | some c => some (applyMask t (c.cells.map (fun x => (catVals.contains (cellStr x) : Bool))))
    else some t
  match step1 with
  | none => none
  | some t1 =>
    let t2 :=
      if (lookupCol t1 numCol).isSome then
        let ta := match nMin with
          | some v => maskBy t1 numCol (fun c => cellGeQ c v)
          | none => t1
        match nMax with
        | some v => maskBy ta numCol (fun c => cellLeQ c v)
        | none => ta
      else t1
    let t3 :=
      if (lookupCol t2 dateCol).isSome then
        let tc :=
          if kindOf t2 dateCol = some .datetime then t2
          else replaceCol t2 dateCol (fun c =>
            ⟨c.name, .datetime, c.cells.map dateParseCell⟩)
        let td :=
          if dStart ≠ "" then
            match parseDateStr dStart with
            | some d => maskBy tc dateCol (fun c => cellGeT c (dayBase d))
            | none => tc
          else tc
        if dEnd ≠ "" then
          match parseDateStr dEnd with
          | some d => maskBy td dateCol (fun c => cellLeT c (dayBase d + 86400 - 1))
          | none => td
        else td
      else t2
    some t3

/-- Entry `(i, j)` of the correlation matrix; `none` both for a missing
(NaN) entry and for an out-of-range index. -/
def corrAt (t : Table) (i j : ℕ) : Option (ℤ × ℚ) :=
  match (correlationMatrix t).get? i with
  | some row =>
    match row.2.get? j with
    | some e => e.2
    | none => none
  | none => none

/-- Centred self-sum `n·Σx² − (Σx)²` of a column's non-missing values:
`n²` times its population variance, so it vanishes exactly when the
column is constant on fewer-than-two or identical observations. -/
def cSelf (cs : List Cell) : ℚ :=
  let vs := numCells cs
  ((vs.length : ℚ)) * (vs.map (fun x => x * x)).sum - vs.sum * vs.sum

/-- Decidable equality for `Except`, used to evaluate the embedded
insight generator on concrete tables. -/
instance {ε α : Type} [DecidableEq ε] [DecidableEq α] :
    DecidableEq (Except ε α) := fun a b =>
  match a, b with
  | .ok x, .ok y =>
    if h : x = y then isTrue (by rw [h])
    else isFalse (by intro hh; cases hh; exact h rfl)
  | .error x, .error y =>
    if h : x = y then isTrue (by rw [h])
    else isFalse (by intro hh; cases hh; exact h rfl)
  | .ok _, .error _ => isFalse (by intro h; cases h)
  | .error _, .ok _ => isFalse (by intro h; cases h)

/-- One anomaly note of `detect_anomalies`: a negative-value flag or a
3-standard-deviation outlier flag for a numeric column. -/
inductive AnomalyItem where
  | negatives (col : String) (count : ℕ)
  | outliers (col : String) (count : ℕ)
deriving DecidableEq, Repr

/-- One element of the `insights_sections` list built by
`generate_all_insights`, with the data each narrative string carries
(display-only figures — percentages, the memory footprint, date
formatting — are presentation and not part of the payload). -/
inductive InsightSection where
  | topPerformer (group : Cell) (total : ℚ)
  | bottomPerformer (group : Cell) (total : ℚ)
  | missingData (entries : List (String × ℕ))
  | dataQuality
  | anomalies (items : List AnomalyItem)
  | noAnomalies
  | dateTrends (minT maxT : ℤ) (spanDays : ℤ)
      (busiestDay : ℤ) (busiestCount : ℕ) (slowestDay : ℤ) (slowestCount : ℕ)
  | datasetSummary (rows cols numC catC dateC : ℕ)
deriving DecidableEq, Repr

/-- Distinct non-missing group keys of a grouping column (pandas
`groupby` drops missing keys). -/
def groupKeys (g : List Cell) : List Cell :=
  (g.filter (fun c => !c.isMissing)).dedup

/-- Per-group sum of the value column over rows with the given key
(`groupby(g)[v].sum()`; missing values contribute nothing). -/
def groupSum (g v : List Cell) (k : Cell) : ℚ :=
  ((g.zip v).filterMap (fun p =>
    if p.1 = k then
      match p.2 with | .num q => some q | _ => none
    else none)).sum

/-- Grouped sums sorted by descending total
(`groupby(g)[v].sum().sort_values(ascending=False)`).  The order of
equal totals is unspecified in pandas (quicksort); the embedding uses a
stable insertion sort over first-encountered key order. -/
def groupedSorted (g v : List Cell) : List (Cell × ℚ) :=
  List.insertionSort (fun a b => b.2 ≤ a.2)
    ((groupKeys g).map (fun k => (k, groupSum g v k)))

/-- Embedding of `identify_top_bottom_performers` (`insights.py` lines
11-42): `none` for a falsy (empty) column name — or for an absent
column, where pandas `groupby` would raise — otherwise the first `n`
and last `n` entries of the descending grouped sums. -/
def identifyTopBottomPerformers (t : Table) (groupCol valueCol : String)
    (n : ℕ) : Option (List (Cell × ℚ) × List (Cell × ℚ)) :=
  if groupCol = "" ∨ valueCol = "" then none
  else
    match lookupCol t groupCol, lookupCol t valueCol with
    | some gc, some vc =>
      let grouped := groupedSorted gc.cells vc.cells
      some (grouped.take n, grouped.drop (grouped.length - n))
    | _, _ => none

/-- Columns with a nonzero missing count, in column order. -/
def missingEntries (t : Table) : List (String × ℕ) :=
  (missingReport t).filter (fun p => 0 < p.2)

/-- Embedding of `detect_missing_values` (`insights.py` lines 45-74):
the missing-data listing when any column has missing cells (the source
prints at most 5 of them with percentages — presentation), otherwise
the no-missing-values note. -/
def detectMissingValues (t : Table) : InsightSection :=
  if missingEntries t ≠ [] then .missingData (missingEntries t)
  else .dataQuality

/-- Tokens suggesting a non-negative quantity in `detect_anomalies`. -/
def nonNegTokens : List String := ["quantity", "amount", "price", "sales"]

/-- Sample mean of a value list (`none` when empty, pandas `NaN`). -/
def meanOf (vals : List ℚ) : Option ℚ :=
  if vals.length = 0 then none else some (vals.sum / (vals.length : ℚ))

/-- Sample variance, ddof = 1 (`none` for fewer than two values, where
pandas `std` is `NaN`).  The source only uses the standard deviation
through `std > 0` and `|value − mean| > 3·std`, both of which are
expressed on the variance below. -/
def varOf (vals : List ℚ) : Option ℚ :=
  if vals.length < 2 then none
  else some ((vals.map (fun x => (x - vals.sum / (vals.length : ℚ)) ^ 2)).sum /
    ((vals.length : ℚ) - 1))

/-- Anomaly notes of one numeric column (`detect_anomalies` loop body):
the negative-count flag for non-negative-suggesting names, then the
outlier flag when the standard deviation is positive and the count of
values beyond 3 standard deviations is strictly between 0 and 10% of
the row count.  `value < mean − 3·std ∨ value > mean + 3·std` is
expressed equivalently as `(value − mean) ^ 2 > 9·variance`. -/
def anomalyItemsOf (rows : ℕ) (c : Column) : List AnomalyItem :=
  let negPart : List AnomalyItem :=
    if nonNegTokens.any (fun w => hasSub (lowerStr c.name) w) then
      let negCount := c.cells.countP (fun x =>
        match x with | .num q => q < 0 | _ => false)
      if 0 < negCount then [.negatives c.name negCount] else []
    else []
  let vals := numCells c.cells
  let outPart : List AnomalyItem :=
    match meanOf vals, varOf vals with
    | some m, some var =>
      if 0 < var then
        let outCount := vals.countP (fun x => (x - m) ^ 2 > 9 * var)
        if 0 < outCount ∧ (outCount : ℚ) < (rows : ℚ) * (1 / 10) then
          [.outliers c.name outCount]
        else []
      else []
    | _, _ => []
  negPart ++ outPart

/-- Embedding of `detect_anomalies` (`insights.py` lines 77-122) at its
default `n_std = 3`: notes over the first five numeric columns, or the
no-anomalies note when none arise. -/
def detectAnomalies (t : Table) : InsightSection :=
  if (((t.cols.filter (fun c => c.kind = .numeric)).take 5).map
      (anomalyItemsOf (numRows t))).flatten = [] then
    .noAnomalies
  else
    .anomalies ((((t.cols.filter (fun c => c.kind = .numeric)).take 5).map
      (anomalyItemsOf (numRows t))).flatten)

/-- Non-missing timestamps of a cell list. -/
def dtVals (cs : List Cell) : List ℤ :=
  cs.filterMap (fun c => match c with | .dt v => some v | _ => none)

/-- Minimum of an integer list (`none` when empty, pandas `NaT`). -/
def minOfZ (l : List ℤ) : Option ℤ :=
  l.foldl (fun acc v =>
    match acc with | none => some v | some a => some (min a v)) none

/-- Maximum of an integer list (`none` when empty, pandas `NaT`). -/
def maxOfZ (l : List ℤ) : Option ℤ :=
  l.foldl (fun acc v =>
    match acc with | none => some v | some a => some (max a v)) none

/-- Embedding of `analyze_date_trends` (`insights.py` lines 125-161):
`ok none` when no datetime column exists (the empty narrative); when
the first datetime column has only missing values its minimum is `NaT`
and `NaT.strftime` raises — modelled as `error`.  Otherwise the date
range and the busiest/slowest calendar day by row count (`idxmax` /
`idxmin` return the first extremal day in ascending day order). -/
def analyzeDateTrends (t : Table) : Except String (Option InsightSection) :=
  match t.cols.filter (fun c => c.kind = .datetime) with
  | [] => .ok none
  | c :: _ =>
    let vs := dtVals c.cells
    match minOfZ vs, maxOfZ vs with
    | some mn, some mx =>
      let dayOf : ℤ → ℤ := fun v => Int.ediv v 86400
      let days := List.insertionSort (fun a b => a ≤ b) ((vs.map dayOf).dedup)
      let cnt : ℤ → ℕ := fun k => vs.countP (fun v => dayOf v = k)
      let cmax := (days.map cnt).foldr max 0
      let cmin :=
        match days.map cnt with
        | [] => 0
        | x :: xs => xs.foldl min x
      let busiest := ((days.find? (fun k => cnt k = cmax)).getD 0)
      let slowest := ((days.find? (fun k => cnt k = cmin)).getD 0)
      .ok (some (.dateTrends mn mx (Int.ediv (mx - mn) 86400)
        busiest (cnt busiest) slowest (cnt slowest)))
    | _, _ => .error "NaTType does not support strftime"

/-- Count of columns of a kind. -/
def countKind (t : Table) (k : Kind) : ℕ :=
  (t.cols.filter (fun c => c.kind = k)).length

/-- Embedding of `generate_dataset_summary` (`insights.py` lines
164-195): row/column counts and per-kind column counts (the memory
figure is presentation). -/
def generateDatasetSummary (t : Table) : InsightSection :=
  .datasetSummary (numRows t) t.cols.length
    (countKind t .numeric) (countKind t .text) (countKind t .datetime)

/-- Priority tokens for the value column in `generate_all_insights`. -/
def valueTokens : List String :=
  ["quantity", "amount", "sales", "revenue", "price", "total", "weekly",
   "monthly", "cost", "profit", "value"]

/-- Priority tokens for the grouping column in `generate_all_insights`. -/
def groupTokens : List String :=
  ["country", "product", "category", "customer", "description", "name",
   "store", "region", "city", "state", "department"]

/-- Distinct non-missing value count of a named column (`nunique`). -/
def nuniqueOf (t : Table) (n : String) : ℕ :=
  match lookupCol t n with
  | some c => ((c.cells.filter (fun x => !x.isMissing)).dedup).length
  | none => 0

/-- Value-column choice of `generate_all_insights` (lines 230-244):
first numeric column with a priority token in its name, else the first
numeric column. -/
def chooseValueCol (t : Table) : Option String :=
  let numericNames := (t.cols.filter (fun c => c.kind = .numeric)).map (fun c => c.name)
  match numericNames.find? (fun n => valueTokens.any (fun w => hasSub (lowerStr n) w)) with
  | some n => some n
  | none => numericNames.head?

/-- Grouping-candidate list of `generate_all_insights` (lines 222-228):
the object/category columns followed by the numeric columns with fewer
than 100 distinct values (low-cardinality numerics treated as
categorical). -/
def groupCandidates (t : Table) : List String :=
  let catNames := (t.cols.filter (fun c => c.kind = .text)).map (fun c => c.name)
  let numericNames := (t.cols.filter (fun c => c.kind = .numeric)).map (fun c => c.name)
  catNames ++ numericNames.filter (fun n => nuniqueOf t n < 100 ∧ n ∉ catNames)

/-- Grouping-column choice of `generate_all_insights` (lines 246-259):
first candidate with a priority token in its name, else the first
candidate. -/
def chooseGroupCol (t : Table) : Option String :=
  let cands := groupCandidates t
  match cands.find? (fun n => groupTokens.any (fun w => hasSub (lowerStr n) w)) with
  | some n => some n
  | none => cands.head?

/-- Performer part of `generate_all_insights` (`insights.py` lines
230-275): the top/bottom tables and the performer callout sections.
Inside the source's `try` block the tables are assigned before
`grouped.index[0]` can raise `IndexError` on an empty grouping, so an
empty grouping yields assigned (empty) tables with no performer
callouts.  Python truthiness of a column literally named by the empty
string is not modelled (no heuristic can select such a name from a
real frame's tokens). -/
def performerBlock (t : Table) :
    Option (List (Cell × ℚ)) × Option (List (Cell × ℚ)) × List InsightSection :=
  match chooseValueCol t, chooseGroupCol t with
  | some v, some g =>
    if v ≠ g then
      match identifyTopBottomPerformers t g v 10 with
      | some (tp, bt) =>
        match lookupCol t g, lookupCol t v with
        | some gc, some vc =>
          let grouped := groupedSorted gc.cells vc.cells
          match grouped.head?, grouped.getLast? with
          | some hd, some lst =>
            (some tp, some bt,
              [.topPerformer hd.1 hd.2, .bottomPerformer lst.1 lst.2])
          | _, _ => (some tp, some bt, [])
        | _, _ => (some tp, some bt, [])
      | none => (none, none, [])
    else (none, none, [])
  | _, _ => (none, none, [])

/-- Embedding of `generate_all_insights` (`insights.py` lines 198-291).
The result is the returned triple: top-performer table, bottom-performer
table, and the ordered section list the narrative is joined from
(performer callouts, missing-data, anomalies, temporal trend when
present, dataset summary); an uncaught exception is `error`. -/
def generateAllInsights (t : Table) :
    Except String
      (Option (List (Cell × ℚ)) × Option (List (Cell × ℚ)) × List InsightSection) :=
  match analyzeDateTrends t with
  | .error e => .error e
  | .ok trendOpt =>
    .ok ((performerBlock t).1, (performerBlock t).2.1,
      (performerBlock t).2.2 ++ [detectMissingValues t, detectAnomalies t] ++
        trendOpt.toList ++ [generateDatasetSummary t])

/-! ## Theorems settling the claims -/

attribute [local semireducible] Rat.add Rat.mul Rat.inv Rat.sub

/-- Column whose kind is already datetime is preserved by inference
(`clean_and_infer_types` line 68-69). -/
theorem inferCol_datetime (c : Column) (h : c.kind = Kind.datetime) :
    inferCol c = c := by
  unfold inferCol
  rw [if_pos h]

/-- Column whose kind is numeric is preserved by inference: every
conversion branch requires object dtype. -/
theorem inferCol_numeric_kind (c : Column) (h : c.kind = Kind.numeric) :
    inferCol c = c := by
  unfold inferCol
  simp [h]

/-- Per-column inference is idempotent. -/
theorem inferCol_idem (c : Column) : inferCol (inferCol c) = inferCol c := by
  by_cases h1 : c.kind = Kind.datetime
  · rw [inferCol_datetime c h1, inferCol_datetime c h1]
  · by_cases h2 : likelyDate c.name ∧ c.kind = Kind.text ∧
        notnaFrac (c.cells.map dateParseCell) > 1 / 2
    · have e : inferCol c = ⟨c.name, Kind.datetime, c.cells.map dateParseCell⟩ := by
        unfold inferCol
        rw [if_neg h1, if_pos h2]
      rw [e]
      rw [inferCol_datetime _ rfl]
    · by_cases h3 : c.kind = Kind.text ∧ ¬ likelyDate c.name ∧
          notnaFrac (c.cells.map numParseCell) > 1 / 2
      · have e : inferCol c = ⟨c.name, Kind.numeric, c.cells.map numParseCell⟩ := by
          unfold inferCol
          rw [if_neg h1, if_neg h2, if_pos h3]
        rw [e]
        rw [inferCol_numeric_kind _ rfl]
      · have e : inferCol c = c := by
          unfold inferCol
          rw [if_neg h1, if_neg h2, if_neg h3]
        rw [e, e]

/-- C7: type inference is idempotent — running `clean_and_infer_types`
twice yields the same table as running it once; columns already
converted to datetime or numeric on the first pass are passed through
unchanged on the second. -/
theorem C7_infer_idempotent (t : Table) :
    cleanAndInferTypes (cleanAndInferTypes t) = cleanAndInferTypes t := by
  unfold cleanAndInferTypes
  simp only [List.map_map]
  congr 1
  apply List.map_congr_left
  intro c _
  exact inferCol_idem c

/-- C8: the numeric-conversion threshold comparison in
`clean_and_infer_types` is strict — a textual (non-date-named) column
with a parse-success fraction of exactly one half is left Categorical,
while a fraction strictly above one half replaces it with the parsed
numeric column. -/
theorem C8_threshold_strict (c : Column) (hk : c.kind = Kind.text)
    (hl : ¬ likelyDate c.name) :
    (notnaFrac (c.cells.map numParseCell) = 1 / 2 → inferCol c = c) ∧
    (notnaFrac (c.cells.map numParseCell) > 1 / 2 →
      inferCol c = ⟨c.name, Kind.numeric, c.cells.map numParseCell⟩) := by
  have hnd : ¬ (c.kind = Kind.datetime) := by simp [hk]
  have hnl : ¬ (likelyDate c.name ∧ c.kind = Kind.text ∧
      notnaFrac (c.cells.map dateParseCell) > 1 / 2) := fun h => hl h.1
  constructor
  · intro hf
    unfold inferCol
    rw [if_neg hnd, if_neg hnl, if_neg]
    intro h
    rw [hf] at h
    exact absurd h.2.2 (lt_irrefl _)
  · intro hf
    unfold inferCol
    rw [if_neg hnd, if_neg hnl, if_pos ⟨hk, hl, hf⟩]

/-- Witness for C8 at concrete columns: with cells `"1","2","x","y"`
(fraction one half) the column is unchanged, with `"1","2","3","y"`
(fraction three quarters) it becomes the parsed numeric column. -/
theorem C8_threshold_strict_witness :
    inferCol ⟨"amount", Kind.text, [.str "1", .str "2", .str "x", .str "y"]⟩ =
      ⟨"amount", Kind.text, [.str "1", .str "2", .str "x", .str "y"]⟩ ∧
    inferCol ⟨"amount", Kind.text, [.str "1", .str "2", .str "3", .str "y"]⟩ =
      ⟨"amount", Kind.numeric, [.num 1, .num 2, .num 3, .missing]⟩ :=
  ⟨(C8_threshold_strict _ rfl (by decide)).1 (by decide),
   ((C8_threshold_strict _ rfl (by decide)).2 (by decide)).trans (by decide)⟩

/-- C2 counterexample: the textual column named `date` with cells
`"1","2","3"` fails the datetime threshold (fraction 0) and has numeric
parse fraction 1 > 0.5, yet `clean_and_infer_types` leaves it unchanged
as text — the numeric parse is never attempted for date-named columns,
contradicting the claim that every textual column not replaced by a
Datetime column is numeric-parsed. -/
theorem C2_counterexample :
    likelyDate "date" = true ∧
    notnaFrac (([Cell.str "1", .str "2", .str "3"]).map dateParseCell) ≤ 1 / 2 ∧
    notnaFrac (([Cell.str "1", .str "2", .str "3"]).map numParseCell) > 1 / 2 ∧
    inferCol ⟨"date", Kind.text, [.str "1", .str "2", .str "3"]⟩ =
      ⟨"date", Kind.text, [.str "1", .str "2", .str "3"]⟩ := by
  decide

/-- C2 amended: the best-effort numeric parse is attempted exactly for
textual columns whose name contains no date token; a date-named textual
column that fails the datetime threshold is left unchanged (still
Categorical), even when more than half of its cells would parse as
numeric. -/
theorem C2_numeric_parse_scope (c : Column) (hk : c.kind = Kind.text) :
    (¬ likelyDate c.name →
      inferCol c =
        (if notnaFrac (c.cells.map numParseCell) > 1 / 2 then
          ⟨c.name, Kind.numeric, c.cells.map numParseCell⟩
        else c)) ∧
    (likelyDate c.name → notnaFrac (c.cells.map dateParseCell) ≤ 1 / 2 →
      inferCol c = c) := by
  have hnd : ¬ (c.kind = Kind.datetime) := by simp [hk]
  constructor
  · intro hl
    unfold inferCol
    rw [if_neg hnd, if_neg (fun h => hl h.1)]
    by_cases hf : notnaFrac (c.cells.map numParseCell) > 1 / 2
    · rw [if_pos ⟨hk, hl, hf⟩, if_pos hf]
    · rw [if_neg (fun h => hf h.2.2), if_neg hf]
  · intro hl hf
    unfold inferCol
    rw [if_neg hnd, if_neg (fun h => absurd h.2.2 (not_lt.mpr hf)),
      if_neg (fun h => h.2.1 hl)]

/-- Witness for C2 at concrete columns: the date-named column with
numeric cells stays text; a non-date-named textual column with all
cells numeric becomes the parsed numeric column. -/
theorem C2_numeric_parse_scope_witness :
    inferCol ⟨"date", Kind.text, [.str "1", .str "2", .str "3"]⟩ =
      ⟨"date", Kind.text, [.str "1", .str "2", .str "3"]⟩ ∧
    inferCol ⟨"qty", Kind.text, [.str "7"]⟩ =
      ⟨"qty", Kind.numeric, [.num 7]⟩ :=
  ⟨(C2_numeric_parse_scope ⟨"date", Kind.text, [.str "1", .str "2", .str "3"]⟩
      rfl).2 (by decide) (by decide),
   ((C2_numeric_parse_scope ⟨"qty", Kind.text, [.str "7"]⟩ rfl).1
      (by decide)).trans (by decide)⟩

/-- C9 counterexample: on a table with one column and zero rows,
`utils.apply_filters` with no active criterion returns the completely
empty frame (`pd.DataFrame()`), dropping the column — not the input
table, contradicting the identity claim for zero-row tables. -/
theorem C9_counterexample :
    utilsApplyFilters ⟨[⟨"a", Kind.numeric, []⟩]⟩ [] [] [] = ⟨[]⟩ ∧
    (⟨[⟨"a", Kind.numeric, []⟩]⟩ : Table) ≠ (⟨[]⟩ : Table) := by
  decide

/-- C9 amended: `utils.apply_filters` with empty numeric, categorical
and date criteria is the identity on every table with at least one
column and at least one row; an empty input (zero rows or zero columns)
is mapped to the completely empty frame instead. -/
theorem C9_empty_filter_identity (t : Table) (hc : t.cols ≠ [])
    (hr : numRows t ≠ 0) :
    utilsApplyFilters t [] [] [] = t := by
  unfold utilsApplyFilters
  rw [if_neg]
  · rfl
  · rintro (h | h)
    · exact hc h
    · exact hr h

/-- Witness for C9 at a one-row table. -/
theorem C9_empty_filter_identity_witness :
    utilsApplyFilters ⟨[⟨"a", Kind.numeric, [.num 1]⟩]⟩ [] [] [] =
      ⟨[⟨"a", Kind.numeric, [.num 1]⟩]⟩ :=
  C9_empty_filter_identity ⟨[⟨"a", Kind.numeric, [.num 1]⟩]⟩
    (by decide) (by decide)

/-- C5: evaluation at the failing input — on a table whose (first)
datetime column is entirely missing, `generate_all_insights` propagates
the `ValueError` that `analyze_date_trends` raises when it calls
`strftime` on the `NaT` minimum, contradicting the never-raises
contract. -/
theorem C5_insights_raise_on_all_missing_datetime :
    generateAllInsights ⟨[⟨"order_date", Kind.datetime, [.missing]⟩,
        ⟨"sales", Kind.numeric, [.num 5]⟩]⟩ =
      Except.error "NaTType does not support strftime" := by
  decide

/-- C1 counterexample: `utils.apply_filters` (`utils.py` lines 96-101)
compares against the parsed end bound directly — midnight of the end
day — so a row timestamped at noon of the end day 2021-03-05 (within
calendar day D) is removed, contradicting the claim that the filter
operation keeps every row falling at any time during day D. -/
theorem C1_counterexample :
    utilsApplyFilters
        ⟨[⟨"ts", Kind.datetime, [.dt (dayBase (dayIndex 2021 3 5) + 43200)]⟩]⟩
        [] [] [("ts", "", "2021-03-05")] =
      ⟨[⟨"ts", Kind.datetime, []⟩]⟩ ∧
    parseDateStr "2021-03-05" = some (dayIndex 2021 3 5) ∧
    dayBase (dayIndex 2021 3 5) ≤ dayBase (dayIndex 2021 3 5) + 43200 ∧
    dayBase (dayIndex 2021 3 5) + 43200 < dayBase (dayIndex 2021 3 5) + 86400 := by
  decide

/-- C1 amended: the filter callback in `app.py` (the one wired to the
dashboard) widens the parsed end bound by `+ 1 day − 1 second` before
comparing, so with a date-only end filter on a datetime column it keeps
exactly the rows with value at most the last second of the end day: a
row timestamped at any whole second during calendar day D is kept, and
a row timestamped on day D+1 or later is excluded.  (The separate
`utils.apply_filters` does not widen; see the counterexample.) -/
theorem C1_app_filter_end_of_day (t : Table) (c : Column) (dcol endS : String)
    (D : ℕ) (hc : lookupCol t dcol = some c) (hk : c.kind = Kind.datetime)
    (he : parseDateStr endS = some D) (hne : endS ≠ "") :
    appApplyFilters t "" [] "" none none dcol "" endS =
      some (applyMask t (c.cells.map (fun x => cellLeT x (dayBase D + 86400 - 1)))) ∧
    (∀ v : ℤ, dayBase D ≤ v → v < dayBase D + 86400 →
      cellLeT (.dt v) (dayBase D + 86400 - 1) = true) ∧
    (∀ v : ℤ, dayBase (D + 1) ≤ v →
      cellLeT (.dt v) (dayBase D + 86400 - 1) = false) := by
  refine ⟨?_, ?_, ?_⟩
  · have hko : kindOf t dcol = some Kind.datetime := by
      unfold kindOf
      rw [hc]
      simp [hk]
    unfold appApplyFilters
    rw [if_neg (by simp)]
    have hsome : (lookupCol t dcol).isSome = true := by rw [hc]; rfl
    simp only [ite_self, hsome, if_pos, hko, if_neg (by simp : ¬ ("" : String) ≠ ""),
      if_pos hne, he]
    unfold maskBy
    rw [hc]
  · intro v h1 h2
    simp only [cellLeT, decide_eq_true_eq]
    omega
  · intro v h1
    simp only [cellLeT, decide_eq_false_iff_not]
    unfold dayBase at h1 ⊢
    push_cast at h1 ⊢
    omega

/-- Witness for C1 at a concrete table: with end bound 2021-03-05, the
dashboard filter keeps the row at noon of 2021-03-05 and drops the row
at midnight of 2021-03-06. -/
theorem C1_app_filter_end_of_day_witness :
    appApplyFilters
        ⟨[⟨"ts", Kind.datetime,
          [.dt (dayBase (dayIndex 2021 3 5) + 43200),
           .dt (dayBase (dayIndex 2021 3 6))]⟩]⟩
        "" [] "" none none "ts" "" "2021-03-05" =
      some ⟨[⟨"ts", Kind.datetime,
        [.dt (dayBase (dayIndex 2021 3 5) + 43200)]⟩]⟩ :=
  ((C1_app_filter_end_of_day
      ⟨[⟨"ts", Kind.datetime,
        [.dt (dayBase (dayIndex 2021 3 5) + 43200),
         .dt (dayBase (dayIndex 2021 3 6))]⟩]⟩
      ⟨"ts", Kind.datetime,
        [.dt (dayBase (dayIndex 2021 3 5) + 43200),
         .dt (dayBase (dayIndex 2021 3 6))]⟩
      "ts" "2021-03-05" (dayIndex 2021 3 5)
      (by decide) rfl (by decide) (by decide)).1).trans (by decide)

/-- Every member of a list of naturals is bounded by the `foldr max 0`
of the list. -/
theorem le_foldr_max (l : List ℕ) (a : ℕ) (h : a ∈ l) :
    a ≤ l.foldr max 0 := by
  induction l with
  | nil => cases h
  | cons x xs ih =>
    rcases List.mem_cons.mp h with h1 | h2
    · subst h1
      exact le_max_left _ _
    · exact le_trans (ih h2) (le_max_right _ _)

/-- The `foldr max 0` of a nonempty list of naturals is a member. -/
theorem foldr_max_mem (l : List ℕ) (h : l ≠ []) : l.foldr max 0 ∈ l := by
  induction l with
  | nil => exact absurd rfl h
  | cons x xs ih =>
    rcases eq_or_ne xs [] with h1 | h1
    · subst h1
      simp
    · rcases max_choice x (xs.foldr max 0) with h2 | h2
      · simp only [List.foldr_cons, h2]
        exact List.mem_cons_self _ _
      · simp only [List.foldr_cons, h2]
        exact List.mem_cons_of_mem _ (ih h1)

/-- C4 counterexample: in the column with cells `"b","a"` both values
occur once (a tie) and `"b"` is encountered first, yet
`categorical_summary` reports `"a"` as the most frequent value —
`mode()` returns its result sorted, so ties break to the smallest
value, not to first-encountered order. -/
theorem C4_counterexample :
    categoricalSummary ⟨[⟨"c", Kind.text, [.str "b", .str "a"]⟩]⟩ =
      [("c", 2, some "a")] ∧
    (strCells [Cell.str "b", .str "a"]).count "a" =
      (strCells [Cell.str "b", .str "a"]).count "b" ∧
    (strCells [Cell.str "b", .str "a"]).head? = some "b" ∧
    "a" ≠ "b" := by
  decide

/-- C4 amended: for every categorical column with at least one
non-missing value, the summary's most-frequent value attains the
maximal occurrence count and, among the values attaining it, is the
least in lexicographic (sorted) order — ties break to the smallest
tied value, not to first-encountered order. -/
theorem C4_mode_sorted_tiebreak (t : Table) (c : Column) (hmem : c ∈ t.cols)
    (hk : c.kind = Kind.text) (hne : strCells c.cells ≠ []) :
    ∃ v : String,
      (c.name, (strCells c.cells).dedup.length, some v) ∈ categoricalSummary t ∧
      v ∈ strCells c.cells ∧
      (∀ w ∈ strCells c.cells,
        (strCells c.cells).count w ≤ (strCells c.cells).count v) ∧
      (∀ w ∈ strCells c.cells,
        (strCells c.cells).count w = (strCells c.cells).count v →
          lexLe v w = true) := by
  set vals := strCells c.cells with hvals
  set d := vals.dedup with hd
  set mx := (d.map (fun v => vals.count v)).foldr max 0 with hmx
  set sorted := List.insertionSort (fun a b => lexLe a b = true) d with hsorted
  set filtered := sorted.filter (fun v => vals.count v = mx) with hfiltered
  have hperm : sorted.Perm d := List.perm_insertionSort _ d
  have hdne : d ≠ [] := by
    intro h0
    rw [hd] at h0
    exact hne ((List.dedup_eq_nil (strCells c.cells)).mp h0)
  have hmxmem : mx ∈ d.map (fun v => vals.count v) :=
    foldr_max_mem _ (by simpa using hdne)
  obtain ⟨u, hud, hu⟩ := List.mem_map.mp hmxmem
  have humem : u ∈ filtered := by
    rw [hfiltered]
    refine List.mem_filter.mpr ⟨hperm.mem_iff.mpr hud, ?_⟩
    simp [hu]
  obtain ⟨v, rest, hvrest⟩ : ∃ v rest, filtered = v :: rest := by
    cases hfe : filtered with
    | nil =>
      rw [hfe] at humem
      cases humem
    | cons v rest => exact ⟨v, rest, rfl⟩
  have hvfil : v ∈ filtered := by
    rw [hvrest]
    exact List.mem_cons_self _ _
  have hvcount : vals.count v = mx := by
    have := (List.mem_filter.mp hvfil).2
    simpa using this
  have hvvals : v ∈ vals := by
    have := (List.mem_filter.mp hvfil).1
    exact List.mem_dedup.mp (hperm.mem_iff.mp this)
  have hsortedpw : List.Sorted (fun a b : String => lexLe a b = true) sorted :=
    List.sorted_insertionSort _ d
  have hfilpw : List.Pairwise (fun a b : String => lexLe a b = true) filtered :=
    List.Pairwise.sublist (List.filter_sublist sorted) hsortedpw
  have hhead : ∀ w ∈ rest, lexLe v w = true := by
    rw [hvrest] at hfilpw
    exact fun w hw => List.rel_of_pairwise_cons hfilpw hw
  refine ⟨v, ?_, hvvals, ?_, ?_⟩
  · unfold categoricalSummary
    refine List.mem_map.mpr ⟨c, List.mem_filter.mpr ⟨hmem, by simp [hk]⟩, ?_⟩
    have hmode : modeList (strCells c.cells) = v :: rest := hvrest
    simp [hmode]
  · intro w hw
    rw [hvcount]
    exact le_foldr_max _ _
      (List.mem_map.mpr ⟨w, List.mem_dedup.mpr hw, rfl⟩)
  · intro w hw hwc
    have hwfil : w ∈ filtered := by
      rw [hfiltered]
      refine List.mem_filter.mpr
        ⟨hperm.mem_iff.mpr (List.mem_dedup.mpr hw), ?_⟩
      simp [hwc, hvcount]
    rw [hvrest] at hwfil
    rcases List.mem_cons.mp hwfil with h1 | h2
    · subst h1
      have : ∀ as : List Char, lexLeChars as as = true := by
        intro as
        induction as with
        | nil => rfl
        | cons a as ih => simpa [lexLeChars] using ih
      exact this _
    · exact hhead w h2

/-- Witness for C4 at the tied two-value column. -/
theorem C4_mode_sorted_tiebreak_witness :
    ∃ v : String,
      ("c", (strCells [Cell.str "b", .str "a"]).dedup.length, some v) ∈
        categoricalSummary ⟨[⟨"c", Kind.text, [.str "b", .str "a"]⟩]⟩ ∧
      v ∈ strCells [Cell.str "b", .str "a"] ∧
      (∀ w ∈ strCells [Cell.str "b", .str "a"],
        (strCells [Cell.str "b", .str "a"]).count w ≤
          (strCells [Cell.str "b", .str "a"]).count v) ∧
      (∀ w ∈ strCells [Cell.str "b", .str "a"],
        (strCells [Cell.str "b", .str "a"]).count w =
          (strCells [Cell.str "b", .str "a"]).count v → lexLe v w = true) :=
  C4_mode_sorted_tiebreak ⟨[⟨"c", Kind.text, [.str "b", .str "a"]⟩]⟩
    ⟨"c", Kind.text, [.str "b", .str "a"]⟩
    (List.mem_cons_self _ _) rfl (by decide)

/-- C10: whenever the number `k` of distinct non-missing groups
satisfies `0 < k < 2n`, the top-n table (`head(n)`) and the bottom-n
table (`tail(n)`) of `identify_top_bottom_performers` share at least
one entry, and when `k ≤ n` they are entirely equal. -/
theorem C10_top_bottom_overlap (t : Table) (g v : String) (n : ℕ)
    (gc vc : Column) (hg : lookupCol t g = some gc)
    (hv : lookupCol t v = some vc) (hgne : g ≠ "") (hvne : v ≠ "")
    (hk1 : 0 < (groupKeys gc.cells).length)
    (hk2 : (groupKeys gc.cells).length < 2 * n) :
    ∃ tp bt, identifyTopBottomPerformers t g v n = some (tp, bt) ∧
      (∃ x, x ∈ tp ∧ x ∈ bt) ∧
      ((groupKeys gc.cells).length ≤ n → tp = bt) := by
  have hid : identifyTopBottomPerformers t g v n =
      some ((groupedSorted gc.cells vc.cells).take n,
        (groupedSorted gc.cells vc.cells).drop
          ((groupedSorted gc.cells vc.cells).length - n)) := by
    unfold identifyTopBottomPerformers
    rw [if_neg (by simp [hgne, hvne]), hg, hv]
  set l := groupedSorted gc.cells vc.cells with hl
  have hlen : l.length = (groupKeys gc.cells).length := by
    rw [hl]
    unfold groupedSorted
    rw [List.length_insertionSort, List.length_map]
  have h1 : 0 < l.length := by rw [hlen]; exact hk1
  have h2 : l.length < 2 * n := by rw [hlen]; exact hk2
  refine ⟨l.take n, l.drop (l.length - n), hid, ?_, ?_⟩
  · by_cases hle : l.length ≤ n
    · obtain ⟨x, xs, hxxs⟩ : ∃ x xs, l = x :: xs := by
        cases hc : l with
        | nil => rw [hc] at h1; simp at h1
        | cons x xs => exact ⟨x, xs, rfl⟩
      refine ⟨x, ?_, ?_⟩
      · rw [List.take_of_length_le hle, hxxs]
        exact List.mem_cons_self _ _
      · rw [Nat.sub_eq_zero_of_le hle, List.drop_zero, hxxs]
        exact List.mem_cons_self _ _
    · push_neg at hle
      have hidxlt : l.length - n < l.length := by omega
      have hidxn : l.length - n < n := by omega
      refine ⟨l[l.length - n], ?_, ?_⟩
      · rw [List.getElem_take' l hidxlt hidxn]
        exact List.getElem_mem _
      · have h0 : (l.length - n) + 0 < l.length := by omega
        have e := List.getElem_drop' l h0
        simp only [Nat.add_zero] at e
        rw [e]
        exact List.getElem_mem _
  · intro hle
    have hle2 : l.length ≤ n := by rw [hlen]; exact hle
    rw [List.take_of_length_le hle2, Nat.sub_eq_zero_of_le hle2, List.drop_zero]

/-- Witness for C10 at a three-group table with n = 2. -/
theorem C10_top_bottom_overlap_witness :
    ∃ tp bt, identifyTopBottomPerformers
        ⟨[⟨"Country", Kind.text, [.str "US", .str "FR", .str "DE"]⟩,
          ⟨"Sales", Kind.numeric, [.num 100, .num 50, .num 75]⟩]⟩
        "Country" "Sales" 2 = some (tp, bt) ∧
      (∃ x, x ∈ tp ∧ x ∈ bt) ∧
      ((groupKeys [Cell.str "US", .str "FR", .str "DE"]).length ≤ 2 → tp = bt) :=
  C10_top_bottom_overlap
    ⟨[⟨"Country", Kind.text, [.str "US", .str "FR", .str "DE"]⟩,
      ⟨"Sales", Kind.numeric, [.num 100, .num 50, .num 75]⟩]⟩
    "Country" "Sales" 2
    ⟨"Country", Kind.text, [.str "US", .str "FR", .str "DE"]⟩
    ⟨"Sales", Kind.numeric, [.num 100, .num 50, .num 75]⟩
    (by decide) (by decide) (by decide) (by decide) (by decide) (by decide)

/-- Sum of squares of a rational list is nonnegative. -/
theorem sum_mul_self_nonneg (l : List ℚ) :
    0 ≤ (l.map (fun x => x * x)).sum := by
  apply List.sum_nonneg
  intro x hx
  obtain ⟨y, _, rfl⟩ := List.mem_map.mp hx
  exact mul_self_nonneg y

/-- Cauchy-Schwarz for lists: the square of the sum is at most the
length times the sum of squares. -/
theorem sq_sum_le_len_mul_sum_sq (l : List ℚ) :
    l.sum * l.sum ≤ (l.length : ℚ) * (l.map (fun x => x * x)).sum := by
  induction l with
  | nil => simp
  | cons x xs ih =>
    simp only [List.sum_cons, List.map_cons, List.length_cons]
    push_cast
    have hq := sum_mul_self_nonneg xs
    have hn : (0 : ℚ) ≤ (xs.length : ℚ) := Nat.cast_nonneg _
    rcases eq_or_ne xs [] with rfl | hxe
    · simp
    · have hn1 : (1 : ℚ) ≤ (xs.length : ℚ) := by
        have h0 : 1 ≤ xs.length := List.length_pos.mpr hxe
        exact_mod_cast h0
      nlinarith [sq_nonneg ((xs.length : ℚ) * x - xs.sum), ih, hq, hn1,
        sub_nonneg.mpr ih, mul_nonneg hn (sub_nonneg.mpr ih),
        mul_self_nonneg x]

/-- Self-pairing of a cell list: zipping a list with itself and keeping
numeric pairs diagonalises the numeric values. -/
theorem pairedVals_self (cs : List Cell) :
    pairedVals cs cs = (numCells cs).map (fun a => (a, a)) := by
  induction cs with
  | nil => rfl
  | cons c tl ih =>
    cases c <;> simp [pairedVals, numCells, List.filterMap_cons] at ih ⊢ <;>
      exact ih

/-- Swapping the argument order of `pairedVals` swaps each pair. -/
theorem pairedVals_swap : ∀ xs ys : List Cell,
    pairedVals ys xs = (pairedVals xs ys).map Prod.swap := by
  intro xs
  induction xs with
  | nil =>
    intro ys
    cases ys <;> rfl
  | cons x xs ih =>
    intro ys
    cases ys with
    | nil => rfl
    | cons y ys =>
      cases x <;> cases y <;>
        simp [pairedVals, List.filterMap_cons] at ih ⊢ <;>
        exact ih ys

/-- Pearson entries are symmetric in their two columns. -/
theorem corrEntry_symm (xs ys : List Cell) :
    corrEntry xs ys = corrEntry ys xs := by
  unfold corrEntry
  rw [pairedVals_swap xs ys]
  simp only [List.length_map, List.map_map]
  have h1 : ((pairedVals xs ys).map (Prod.fst ∘ Prod.swap)).sum =
      ((pairedVals xs ys).map Prod.snd).sum := rfl
  have h2 : ((pairedVals xs ys).map (Prod.snd ∘ Prod.swap)).sum =
      ((pairedVals xs ys).map Prod.fst).sum := rfl
  have h3 : ((pairedVals xs ys).map ((fun p : ℚ × ℚ => p.1 * p.1) ∘ Prod.swap)) =
      (pairedVals xs ys).map (fun p => p.2 * p.2) := rfl
  have h4 : ((pairedVals xs ys).map ((fun p : ℚ × ℚ => p.2 * p.2) ∘ Prod.swap)) =
      (pairedVals xs ys).map (fun p => p.1 * p.1) := rfl
  have h5 : ((pairedVals xs ys).map ((fun p : ℚ × ℚ => p.1 * p.2) ∘ Prod.swap)) =
      (pairedVals xs ys).map (fun p => p.1 * p.2) := by
    apply List.map_congr_left
    intro p _
    exact mul_comm p.2 p.1
  rw [h1, h2, h3, h4, h5]
  set ps := pairedVals xs ys
  set n : ℚ := (ps.length : ℚ)
  set sx := (ps.map Prod.fst).sum
  set sy := (ps.map Prod.snd).sum
  set qxx := (ps.map (fun p => p.1 * p.1)).sum
  set qyy := (ps.map (fun p => p.2 * p.2)).sum
  set qxy := (ps.map (fun p => p.1 * p.2)).sum
  rw [show sy * sx = sx * sy from mul_comm sy sx]
  exact if_congr or_comm rfl (by rw [mul_comm (n * qyy - sy * sy)])

/-- Diagonal Pearson entry: exactly 1 (represented `(1, 1)`) when the
centred self-sum is nonzero, missing when it vanishes. -/
theorem corrEntry_diag (cs : List Cell) :
    (cSelf cs ≠ 0 → corrEntry cs cs = some (1, 1)) ∧
    (cSelf cs = 0 → corrEntry cs cs = none) := by
  have hrw : corrEntry cs cs =
      (if cSelf cs = 0 ∨ cSelf cs = 0 then none
      else some (if 0 < cSelf cs then 1 else if cSelf cs < 0 then -1 else 0,
        cSelf cs ^ 2 / (cSelf cs * cSelf cs))) := by
    unfold corrEntry cSelf
    rw [pairedVals_self cs]
    simp only [List.length_map, List.map_map, Function.comp_def,
      List.map_id']
  have hpos : 0 ≤ cSelf cs := by
    have h := sq_sum_le_len_mul_sum_sq (numCells cs)
    unfold cSelf
    dsimp only
    linarith
  constructor
  · intro h
    have hlt : 0 < cSelf cs := lt_of_le_of_ne hpos (Ne.symm h)
    rw [hrw, if_neg (by simp [h]), if_pos hlt]
    have : cSelf cs ^ 2 / (cSelf cs * cSelf cs) = 1 := by
      rw [sq]
      exact div_self (mul_ne_zero h h)
    rw [this]
  · intro h
    rw [hrw, if_pos (Or.inl h)]

/-- Correlation-matrix access is `none` on the empty matrix. -/
theorem corrAt_empty (t : Table) (i j : ℕ)
    (h : (t.cols.filter (fun c => c.kind = Kind.numeric)) = [] ∨ numRows t = 0) :
    corrAt t i j = none := by
  unfold corrAt correlationMatrix
  rw [if_pos h]
  rfl

/-- Correlation-matrix access at in-range indices is the Pearson entry
of the two numeric columns. -/
theorem corrAt_entry (t : Table) (i j : ℕ) (ci cj : Column)
    (hne : ¬ ((t.cols.filter (fun c => c.kind = Kind.numeric)) = [] ∨
      numRows t = 0))
    (hi : (t.cols.filter (fun c => c.kind = Kind.numeric)).get? i = some ci)
    (hj : (t.cols.filter (fun c => c.kind = Kind.numeric)).get? j = some cj) :
    corrAt t i j = corrEntry ci.cells cj.cells := by
  unfold corrAt correlationMatrix
  rw [if_neg hne, List.get?_map, hi, Option.map_some']
  show (match ((t.cols.filter (fun c => c.kind = Kind.numeric)).map
      (fun c2 => (c2.name, corrEntry ci.cells c2.cells))).get? j with
    | some e => e.2
    | none => none) = corrEntry ci.cells cj.cells
  rw [List.get?_map, hj, Option.map_some']

/-- Correlation-matrix access is `none` at any out-of-range index. -/
theorem corrAt_oob (t : Table) (i j : ℕ)
    (hne : ¬ ((t.cols.filter (fun c => c.kind = Kind.numeric)) = [] ∨
      numRows t = 0))
    (h : (t.cols.filter (fun c => c.kind = Kind.numeric)).get? i = none ∨
      (t.cols.filter (fun c => c.kind = Kind.numeric)).get? j = none) :
    corrAt t i j = none := by
  unfold corrAt correlationMatrix
  rw [if_neg hne]
  cases hi : (t.cols.filter (fun c => c.kind = Kind.numeric)).get? i with
  | none =>
    rw [List.get?_map, hi, Option.map_none']
  | some ci =>
    rw [List.get?_map, hi, Option.map_some']
    rcases h with h | h
    · rw [h] at hi
      cases hi
    · show (match ((t.cols.filter (fun c => c.kind = Kind.numeric)).map
          (fun c2 => (c2.name, corrEntry ci.cells c2.cells))).get? j with
        | some e => e.2
        | none => none) = none
      rw [List.get?_map, h, Option.map_none']

/-- C6: the correlation matrix is always symmetric, but its diagonal is
1.0 exactly for numeric columns with nonzero centred self-sum (a
constant or near-empty column has a missing diagonal entry, not 1.0),
and it is empty not only when there are no numeric columns but also
when the table has zero rows. -/
theorem C6_correlation (t : Table) :
    (correlationMatrix t = [] ↔
      (t.cols.filter (fun c => c.kind = Kind.numeric)) = [] ∨ numRows t = 0) ∧
    (∀ i j : ℕ, corrAt t i j = corrAt t j i) ∧
    (∀ i : ℕ, ∀ ci : Column,
      (t.cols.filter (fun c => c.kind = Kind.numeric)).get? i = some ci →
      numRows t ≠ 0 →
      (cSelf ci.cells ≠ 0 → corrAt t i i = some (1, 1)) ∧
      (cSelf ci.cells = 0 → corrAt t i i = none)) := by
  refine ⟨?_, ?_, ?_⟩
  · constructor
    · intro h
      by_contra hc
      unfold correlationMatrix at h
      rw [if_neg hc] at h
      push_neg at hc
      exact hc.1 (List.map_eq_nil.mp h)
    · intro h
      unfold correlationMatrix
      rw [if_pos h]
  · intro i j
    by_cases hc : (t.cols.filter (fun c => c.kind = Kind.numeric)) = [] ∨
        numRows t = 0
    · rw [corrAt_empty t i j hc, corrAt_empty t j i hc]
    · cases hi : (t.cols.filter (fun c => c.kind = Kind.numeric)).get? i with
      | none =>
        rw [corrAt_oob t i j hc (Or.inl hi), corrAt_oob t j i hc (Or.inr hi)]
      | some ci =>
        cases hj : (t.cols.filter (fun c => c.kind = Kind.numeric)).get? j with
        | none =>
          rw [corrAt_oob t i j hc (Or.inr hj), corrAt_oob t j i hc (Or.inl hj)]
        | some cj =>
          rw [corrAt_entry t i j ci cj hc hi hj,
            corrAt_entry t j i cj ci hc hj hi]
          exact corrEntry_symm ci.cells cj.cells
  · intro i ci hi hr
    have hne : ¬ ((t.cols.filter (fun c => c.kind = Kind.numeric)) = [] ∨
        numRows t = 0) := by
      rintro (h | h)
      · rw [h] at hi
        cases hi
      · exact hr h
    constructor
    · intro h
      rw [corrAt_entry t i i ci ci hne hi hi]
      exact (corrEntry_diag ci.cells).1 h
    · intro h
      rw [corrAt_entry t i i ci ci hne hi hi]
      exact (corrEntry_diag ci.cells).2 h

/-- Witness for C6 at concrete tables: the diagonal of a genuinely
varying column evaluates to 1.0 and a symmetric pair of accesses
agree. -/
theorem C6_correlation_witness :
    corrAt ⟨[⟨"a", Kind.numeric, [.num 1, .num 2]⟩]⟩ 0 0 = some (1, 1) ∧
    corrAt ⟨[⟨"a", Kind.numeric, [.num 1, .num 2]⟩]⟩ 0 1 =
      corrAt ⟨[⟨"a", Kind.numeric, [.num 1, .num 2]⟩]⟩ 1 0 :=
  ⟨((C6_correlation ⟨[⟨"a", Kind.numeric, [.num 1, .num 2]⟩]⟩).2.2 0
      ⟨"a", Kind.numeric, [.num 1, .num 2]⟩ (by decide) (by decide)).1
      (by decide),
   (C6_correlation ⟨[⟨"a", Kind.numeric, [.num 1, .num 2]⟩]⟩).2.1 0 1⟩

/-- C6 counterexample: the diagonal entry of a constant numeric column
is missing (pandas `NaN`), not 1.0, and the matrix of a zero-row table
with a numeric column is empty even though a numeric column exists. -/
theorem C6_counterexample :
    correlationMatrix ⟨[⟨"a", Kind.numeric, [.num 1, .num 1, .num 1]⟩]⟩ =
      [("a", [("a", none)])] ∧
    correlationMatrix ⟨[⟨"b", Kind.numeric, []⟩]⟩ = [] ∧
    ((⟨[⟨"b", Kind.numeric, []⟩]⟩ : Table).cols.filter
      (fun c => c.kind = Kind.numeric)) ≠ [] := by
  refine ⟨by decide, by decide, by decide⟩

/-- Anomaly notes of a column with no cells are empty. -/
theorem anomalyItemsOf_nil (rows : ℕ) (c : Column) (hc : c.cells = []) :
    anomalyItemsOf rows c = [] := by
  unfold anomalyItemsOf
  rw [hc]
  simp [numCells, meanOf]

/-- A flattened map whose pieces are all empty is empty. -/
theorem flatten_eq_nil_of_all (l : List Column) (f : Column → List AnomalyItem)
    (h : ∀ c ∈ l, f c = []) : (l.map f).flatten = [] := by
  induction l with
  | nil => rfl
  | cons c cs ih =>
    simp only [List.map_cons, List.flatten_cons, h c (List.mem_cons_self _ _),
      List.nil_append]
    exact ih (fun x hx => h x (List.mem_cons_of_mem _ hx))

/-- On a table whose columns all have no cells, anomaly detection
reports no anomalies. -/
theorem detectAnomalies_zero_rows (t : Table)
    (hcells : ∀ c ∈ t.cols, c.cells = []) :
    detectAnomalies t = .noAnomalies := by
  unfold detectAnomalies
  rw [flatten_eq_nil_of_all _ _ (fun c hc => anomalyItemsOf_nil _ c
    (hcells c (List.mem_of_mem_filter (List.mem_of_mem_take hc))))]
  rfl

/-- On a table whose columns all have no cells, the performer callout
sections are absent. -/
theorem performerBlock_sections_nil (t : Table)
    (hcells : ∀ c ∈ t.cols, c.cells = []) :
    (performerBlock t).2.2 = [] := by
  unfold performerBlock
  cases hcv : chooseValueCol t with
  | none => rfl
  | some v =>
    cases hcg : chooseGroupCol t with
    | none => rfl
    | some g =>
      dsimp only
      by_cases hvg : v ≠ g
      · rw [if_pos hvg]
        cases hid : identifyTopBottomPerformers t g v 10 with
        | none => rfl
        | some pr =>
          obtain ⟨tp, bt⟩ := pr
          cases hg : lookupCol t g with
          | none => rfl
          | some gc =>
            cases hv : lookupCol t v with
            | none => rfl
            | some vc =>
              have hgc : gc.cells = [] :=
                hcells gc (List.mem_of_find?_eq_some hg)
              have hgrp : groupedSorted gc.cells vc.cells = [] := by
                rw [hgc]
                rfl
              simp [hgrp]
      · rw [if_neg hvg]

/-- C3 counterexample: on a zero-row table with one numeric column the
insight text contains the data-quality ("no missing values") and
anomaly ("no significant anomalies") sections in addition to the
dataset summary — it is not only the dataset-summary narrative. -/
theorem C3_counterexample :
    numRows ⟨[⟨"sales", Kind.numeric, []⟩]⟩ = 0 ∧
    generateAllInsights ⟨[⟨"sales", Kind.numeric, []⟩]⟩ =
      .ok (none, none,
        [.dataQuality, .noAnomalies, .datasetSummary 0 1 1 0 0]) ∧
    ([InsightSection.dataQuality, .noAnomalies, .datasetSummary 0 1 1 0 0] ≠
      [InsightSection.datasetSummary 0 1 1 0 0]) := by
  refine ⟨by decide, by decide, by decide⟩

/-- C3 amended: for a zero-row table without datetime columns, the
profiler returns an empty numeric summary, an empty correlation matrix
and a missing report mapping every column to 0, and the insight
sections are exactly data-quality, no-anomalies and the dataset summary
(performer and temporal sections are absent, but the data-quality and
anomaly notes are present, so the text is not the dataset summary
alone).  A zero-row table with a datetime column instead raises, per
the C5 analysis. -/
theorem C3_zero_rows (t : Table)
    (hcells : ∀ c ∈ t.cols, c.cells = [])
    (hnodt : ∀ c ∈ t.cols, c.kind ≠ Kind.datetime) :
    numericSummary t = [] ∧
    correlationMatrix t = [] ∧
    missingReport t = t.cols.map (fun c => (c.name, 0)) ∧
    ∃ tb bb, generateAllInsights t =
      .ok (tb, bb,
        [.dataQuality, .noAnomalies,
          .datasetSummary 0 t.cols.length (countKind t Kind.numeric)
            (countKind t Kind.text) 0]) := by
  have hr0 : numRows t = 0 := by
    unfold numRows
    cases hc : t.cols with
    | nil => rfl
    | cons c cs =>
      dsimp only
      rw [hcells c (hc ▸ List.mem_cons_self c cs)]
      rfl
  have hfdt : t.cols.filter (fun c => c.kind = Kind.datetime) = [] :=
    List.filter_eq_nil_iff.mpr (fun c hc => by simp [hnodt c hc])
  refine ⟨?_, ?_, ?_, ?_⟩
  · simp [numericSummary, hr0]
  · simp [correlationMatrix, hr0]
  · unfold missingReport
    apply List.map_congr_left
    intro c hc
    rw [hcells c hc]
    rfl
  · have hadt : analyzeDateTrends t = .ok none := by
      unfold analyzeDateTrends
      rw [hfdt]
    have hdmv : detectMissingValues t = .dataQuality := by
      have hme : missingEntries t = [] := by
        unfold missingEntries missingReport
        apply List.filter_eq_nil_iff.mpr
        intro p hp
        obtain ⟨c, hc, rfl⟩ := List.mem_map.mp hp
        simp [hcells c hc]
      unfold detectMissingValues
      rw [hme]
      simp
    have hda : detectAnomalies t = .noAnomalies :=
      detectAnomalies_zero_rows t hcells
    have hdt0 : countKind t Kind.datetime = 0 := by
      unfold countKind
      rw [hfdt]
      rfl
    have hds : generateDatasetSummary t =
        .datasetSummary 0 t.cols.length (countKind t Kind.numeric)
          (countKind t Kind.text) 0 := by
      unfold generateDatasetSummary
      rw [hr0, hdt0]
    refine ⟨(performerBlock t).1, (performerBlock t).2.1, ?_⟩
    unfold generateAllInsights
    rw [hadt]
    dsimp only
    rw [performerBlock_sections_nil t hcells, hdmv, hda, hds]
    rfl

/-- Witness for C3 at the concrete zero-row one-column table. -/
theorem C3_zero_rows_witness :
    numericSummary ⟨[⟨"sales", Kind.numeric, []⟩]⟩ = [] ∧
    correlationMatrix ⟨[⟨"sales", Kind.numeric, []⟩]⟩ = [] ∧
    missingReport ⟨[⟨"sales", Kind.numeric, []⟩]⟩ =
      (⟨[⟨"sales", Kind.numeric, []⟩]⟩ : Table).cols.map
        (fun c => (c.name, 0)) ∧
    ∃ tb bb, generateAllInsights ⟨[⟨"sales", Kind.numeric, []⟩]⟩ =
      .ok (tb, bb,
        [.dataQuality, .noAnomalies,
          .datasetSummary 0
            (⟨[⟨"sales", Kind.numeric, []⟩]⟩ : Table).cols.length
            (countKind ⟨[⟨"sales", Kind.numeric, []⟩]⟩ Kind.numeric)
            (countKind ⟨[⟨"sales", Kind.numeric, []⟩]⟩ Kind.text) 0]) :=
  C3_zero_rows ⟨[⟨"sales", Kind.numeric, []⟩]⟩ (by decide) (by decide)

end BIDash
